import Mathlib

/-!
Shallow embedding of the authorization / visibility core of
`src/app.py` (zyb-appstore-iot-admin): the SN visibility filter
(`filter_apps_by_sn`), the create/delete catalog mutations (`add_app`,
`delete_app`), the quota check inside `add_app`, the SN-registry conflict
check inside `add_app`, and the read-only listing endpoints
(`system_apps_list`, `auto_update_list`, `apk_details`).

Python values are modelled as follows: machine/JSON integers as `Int`
(counters, which the JSON file may hold with any value) or `Nat`
(catalog ids, which the code only ever produces from `int` of a digit
string or `random.randint(100000, 999999)`); optional/absent JSON
fields as `Option _`; the two random draws that `add_app` can make
(line 824 and line 845 of the source) as explicit parameters `g1 g2`.
Stateful code is explicit state passing on `St`; each operation returns
the resulting store state paired with an `Except`-style outcome, with
every early-`return` error path of the Python yielding the unmodified
input state, exactly as the Python redirects before any `save_apps` /
`save_config` call.
-/

/-- Account roles.  Inside the handlers guarded by `has_role("manager")`
the acting user's role is `"manager"` or `"super"`. -/
inductive Role where
  | super : Role
  | manager : Role
deriving DecidableEq, Repr

/-- A manager/super account as stored in `config.json`'s `users` map:
`max_apps` and `owns_apps` are optional JSON fields (absent for `super`
accounts, and possibly drifted for managers), hence `Option Int`. -/
structure ManagerAccount where
  role : Role
  maxApps : Option Int
  ownsApps : Option Int
deriving DecidableEq, Repr

/-- A catalog entry (`apps.json` item).  Only the fields the
authorization/visibility core touches are modelled: `id`, `owner`, and
`allowedSn`, where `none` models an entry whose `allowedSn` JSON field
is entirely absent (`app.get("allowedSn")` is `None`). -/
structure AppEntry where
  id : Nat
  owner : String
  allowedSn : Option (List String)
deriving DecidableEq, Repr

/-- The three persisted stores: `apps.json` (ordered catalog),
`config.json`'s `users` (username → account), and
`sn_access_control.json` (SN code → owning manager username). -/
structure St where
  apps : List AppEntry
  users : List (String × ManagerAccount)
  snConfig : List (String × String)
deriving DecidableEq, Repr

/-- ASCII whitespace, the characters Python's `str.strip()` removes from
the inputs this system sees. -/
def isSpaceChar (c : Char) : Bool :=
  c == ' ' || c == '\t' || c == '\n' || c == '\r' ||
  c == '\x0b' || c == '\x0c'

/-- Python `s.strip()`: drop leading and trailing whitespace. -/
def pyStrip (s : String) : String :=
  ⟨((s.data.dropWhile isSpaceChar).reverse.dropWhile isSpaceChar).reverse⟩

/-- Helper for `pySplitComma`: accumulates the current piece (reversed)
while scanning the character list. -/
def splitCommaAux : List Char → List Char → List (List Char)
  | [], acc => [acc.reverse]
  | c :: rest, acc =>
    if c == ',' then acc.reverse :: splitCommaAux rest []
    else splitCommaAux rest (c :: acc)

/-- Python `s.split(',')`. -/
def pySplitComma (s : String) : List String :=
  (splitCommaAux s.data []).map (fun l => ⟨l⟩)

/-- Python `s.isdigit()` restricted to ASCII digits: non-empty and all
characters are digits. -/
def pyIsDigit (s : String) : Bool :=
  !s.data.isEmpty && s.data.all Char.isDigit

/-- Python `int(s)` on a digit string. -/
def pyStrToNat (s : String) : Nat :=
  s.data.foldl (fun n c => 10 * n + (c.toNat - '0'.toNat)) 0

/-- Python `dict.get(name)` on the `users` map. -/
def lookupUser (users : List (String × ManagerAccount)) (name : String) :
    Option ManagerAccount :=
  (users.find? (fun p => p.1 == name)).map (fun p => p.2)

/-- Python `sn_config.get(sn)` on the SN registry. -/
def snLookup (snConfig : List (String × String)) (sn : String) : Option String :=
  (snConfig.find? (fun p => p.1 == sn)).map (fun p => p.2)

/-- Per-entry visibility test of `filter_apps_by_sn` when the (stripped)
client SN is non-empty: `allowed_sns is not None and len(allowed_sns) == 0`
(explicit public entry), or `allowed_sns` truthy and `client_sn in
allowed_sns` (whitelisted entry); an absent `allowedSn` matches neither. -/
def visibleWithSn (sn : String) (a : AppEntry) : Bool :=
  match a.allowedSn with
  | none => false
  | some l => if l.isEmpty then true else l.contains sn

/-- `filter_apps_by_sn(all_apps, client_sn)` (src/app.py lines 212-240):
strips the client SN; with a non-empty stripped SN keeps explicitly
public entries and whitelisted entries, with an empty stripped SN keeps
only explicitly public entries (`allowedSn == []`). -/
def filter_apps_by_sn (all_apps : List AppEntry) (client_sn : String) :
    List AppEntry :=
  let sn := pyStrip client_sn
  if sn ≠ "" then
    all_apps.filter (fun a => visibleWithSn sn a)
  else
    all_apps.filter (fun a => a.allowedSn == some [])

/-- The errors `add_app` can redirect with (src/app.py lines 793-846),
in source order of their checks. -/
inductive CreateError where
  | missingFileInfo : CreateError
  | quotaExceeded : CreateError
  | snConflict (sn owner : String) : CreateError
  | missingFields : CreateError
  | duplicateId (id : Nat) : CreateError
deriving DecidableEq, Repr

/-- The `add_app` form fields the core logic reads; a missing field and
an empty field are both falsy in the Python, so both are `""` here. -/
structure AddForm where
  downloadUrl : String
  size : String
  md5 : String
  appName : String
  packageName : String
  allowedSnRaw : String
  idRaw : String
deriving DecidableEq, Repr

/-- Quota check of `add_app` (src/app.py lines 797-801): only applied
when the acting account's role is `manager`; `owns_apps` defaults to 0
and `max_apps` defaults to 9999 when absent; fails when
`current_owns >= max_limit`. -/
def quotaCheck (user_data : Option ManagerAccount) : Bool :=
  if (user_data.map ManagerAccount.role) == some Role.manager then
    let current_owns := (user_data.bind ManagerAccount.ownsApps).getD 0
    let max_limit := (user_data.bind ManagerAccount.maxApps).getD 9999
    decide (current_owns < max_limit)
  else
    true

/-- SN list parsing of `add_app` (src/app.py lines 804-806): the raw
textarea is stripped; when non-empty it is split on `,`, each piece
stripped, empty pieces dropped; when empty the entry gets `[]`. -/
def parseSnList (allowedSnRaw : String) : List String :=
  let raw := pyStrip allowedSnRaw
  if raw ≠ "" then
    ((pySplitComma raw).map pyStrip).filter (fun s => s ≠ "")
  else
    []

/-- SN-registry conflict scan of `add_app` (src/app.py lines 807-810):
returns the first requested SN whose registry owner is truthy and
differs from the acting user, together with that owner. -/
def findSnConflict (snConfig : List (String × String)) (user : String) :
    List String → Option (String × String)
  | [] => none
  | sn :: rest =>
    match snLookup snConfig sn with
    | some o =>
        if o ≠ "" && o ≠ user then some (sn, o)
        else findSnConflict snConfig user rest
    | none => findSnConflict snConfig user rest

/-- Increment step of `add_app` (src/app.py line 853):
`config["users"][owner_user]["owns_apps"] = current_owns + 1` where
`current_owns = user_data.get("owns_apps", 0)`. -/
def bumpOwns (users : List (String × ManagerAccount)) (name : String)
    (newOwns : Int) : List (String × ManagerAccount) :=
  users.map (fun p =>
    if p.1 == name then (p.1, { p.2 with ownsApps := some newOwns }) else p)

/-- `add_app` (src/app.py lines 779-856).  `owner_user` is the logged-in
principal; `g1` is the value `random.randint(100000, 999999)` would
return at line 824 and `g2` the value it would return at line 845.
Returns the stores after the request together with the outcome; every
error path returns the input stores (the Python redirects before any
save). -/
def add_app (st : St) (owner_user : String) (form : AddForm)
    (g1 g2 : Nat) : St × Except CreateError AppEntry :=
  let user_data := lookupUser st.users owner_user
  if form.downloadUrl == "" || form.size == "" || form.md5 == "" then
    (st, .error .missingFileInfo)
  else if !quotaCheck user_data then
    (st, .error .quotaExceeded)
  else
    let app_data_allowed_sn := parseSnList form.allowedSnRaw
    match findSnConflict st.snConfig owner_user app_data_allowed_sn with
    | some (sn, o) => (st, .error (.snConflict sn o))
    | none =>
      if form.appName == "" || form.packageName == "" then
        (st, .error .missingFields)
      else
        let app_id_raw := pyStrip form.idRaw
        let new_id := if pyIsDigit app_id_raw then pyStrToNat app_id_raw else g1
        let clash := st.apps.any (fun a => a.id == new_id)
        if clash && app_id_raw ≠ "" then
          (st, .error (.duplicateId new_id))
        else
          let final_id := if clash then g2 else new_id
          let entry : AppEntry :=
            { id := final_id, owner := owner_user,
              allowedSn := some app_data_allowed_sn }
          let new_apps := st.apps ++ [entry]
          let new_users :=
            if (user_data.map ManagerAccount.role) == some Role.manager then
              bumpOwns st.users owner_user
                ((user_data.bind ManagerAccount.ownsApps).getD 0 + 1)
            else
              st.users
          ({ st with apps := new_apps, users := new_users }, .ok entry)

/-- Outcomes of `delete_app` that end in a failure message
(src/app.py lines 865-866, 876-877, 892-893). -/
inductive DeleteError where
  | missingId : DeleteError
  | forbidden : DeleteError
  | notFound : DeleteError
deriving DecidableEq, Repr

/-- Decrement step of `delete_app` (src/app.py line 889):
`owns_apps = max(0, users[app_owner].get("owns_apps", 1) - 1)`. -/
def dropOwns (users : List (String × ManagerAccount)) (name : String) :
    List (String × ManagerAccount) :=
  users.map (fun p =>
    if p.1 == name then
      (p.1, { p.2 with ownsApps := some (max 0 ((p.2.ownsApps).getD 1 - 1)) })
    else p)

/-- `delete_app` (src/app.py lines 862-895).  The target id arrives as
the form string `app_id_to_delete` and is compared against `str(app.id)`.
All entries whose id prints to the target are removed; the first such
entry decides authorization and whose counter is decremented. -/
def delete_app (st : St) (owner_user : String) (app_id_to_delete : String) :
    St × Except DeleteError Unit :=
  if app_id_to_delete == "" then
    (st, .error .missingId)
  else
    let app_to_delete :=
      st.apps.find? (fun a => toString a.id == app_id_to_delete)
    let user_role := (lookupUser st.users owner_user).map ManagerAccount.role
    match app_to_delete with
    | some target =>
      if target.owner ≠ owner_user && user_role ≠ some Role.super then
        (st, .error .forbidden)
      else
        let new_apps_list :=
          st.apps.filter (fun a => !(toString a.id == app_id_to_delete))
        let app_owner := target.owner
        let new_users :=
          if (lookupUser st.users app_owner).map ManagerAccount.role
              == some Role.manager then
            dropOwns st.users app_owner
          else
            st.users
        ({ st with apps := new_apps_list, users := new_users }, .ok ())
    | none =>
      (st, .error .notFound)

/-- `system_apps_list` (src/app.py lines 1043-1044): the route hands the
whole of `load_apps()` to the response serializer, with no SN filter. -/
def system_apps_list (all_apps : List AppEntry) : List AppEntry :=
  all_apps

/-- `auto_update_list` (src/app.py lines 1045-1046): likewise serves the
whole catalog unfiltered. -/
def auto_update_list (all_apps : List AppEntry) : List AppEntry :=
  all_apps

/-- `apk_details` (src/app.py lines 1027-1041): looks the requested
`appId` up by `str(app.get("id")) == str(app_id)`; when no entry matches
it falls back to the first catalog entry, and reports the
`"App list is empty"` error (here `none`) only for an empty catalog. -/
def apk_details (all_apps : List AppEntry) (app_id : String) :
    Option AppEntry :=
  match all_apps.find? (fun a => toString a.id == app_id) with
  | some a => some a
  | none => all_apps.head?

/-- The per-entry visibility predicate exactly as the specification
words it, as a predicate on a client SN string: with a non-empty SN an
entry is visible iff its `allowedSn` is the explicit empty set or is
non-empty and contains the SN; with an empty SN only explicitly public
entries are visible; an absent `allowedSn` is never visible. -/
def specVisible (clientSn : String) (a : AppEntry) : Prop :=
  match a.allowedSn with
  | none => False
  | some l =>
    if clientSn ≠ "" then l = [] ∨ (l ≠ [] ∧ clientSn ∈ l)
    else l = []

instance specVisibleDecidable (clientSn : String) (a : AppEntry) :
    Decidable (specVisible clientSn a) := by
  unfold specVisible
  cases a.allowedSn <;> dsimp only <;> infer_instance

theorem visibleWithSn_iff_spec (s : String) (a : AppEntry) (h : s ≠ "") :
    visibleWithSn s a = true ↔ specVisible s a := by
  unfold visibleWithSn specVisible
  cases a.allowedSn with
  | none => simp
  | some l =>
    cases l with
    | nil => simp [h]
    | cons x xs =>
      simp [h, List.elem_iff]

theorem publicOnly_iff_spec (a : AppEntry) :
    (a.allowedSn == some []) = true ↔ specVisible "" a := by
  unfold specVisible
  cases a.allowedSn with
  | none => simp
  | some l => simp

/-- C2 (amended part): membership in `filter_apps_by_sn` is exactly
membership in the catalog plus the specification's visibility predicate
applied to the *stripped* client SN. -/
theorem filter_visibility_amended_aux (c : List AppEntry) (sn : String)
    (a : AppEntry) :
    a ∈ filter_apps_by_sn c sn ↔ a ∈ c ∧ specVisible (pyStrip sn) a := by
  unfold filter_apps_by_sn
  by_cases h : pyStrip sn ≠ ""
  · rw [if_pos h, List.mem_filter, visibleWithSn_iff_spec _ _ h]
  · rw [if_neg h, List.mem_filter]
    rw [not_ne_iff] at h
    rw [h, publicOnly_iff_spec]

/-- C10: the visibility filter is a pure deterministic function of
`(catalog, clientSn)` — two runs on the same inputs are equal — and is
order-preserving: its output is a sublist (subsequence in original
order) of the input catalog. -/
theorem filter_pure_order_preserving (c : List AppEntry) (sn : String) :
    List.Sublist (filter_apps_by_sn c sn) c ∧
    filter_apps_by_sn c sn = filter_apps_by_sn c sn := by
  refine ⟨?_, rfl⟩
  unfold filter_apps_by_sn
  by_cases h : pyStrip sn ≠ ""
  · rw [if_pos h]; exact List.filter_sublist _
  · rw [if_neg h]; exact List.filter_sublist _

/-- C2 counterexample: the claim states the inclusion condition in terms
of the raw client SN, but `filter_apps_by_sn` strips the SN first
(src/app.py line 217): with client SN `" A"` an entry whitelisted for
`"A"` is included by the code although the claim's condition (allowedSn
empty, or containing the raw `" A"`) is false. -/
theorem filter_visibility_counterexample :
    ((⟨1, "m1", some ["A"]⟩ : AppEntry) ∈
        filter_apps_by_sn [⟨1, "m1", some ["A"]⟩] " A") ∧
    ¬ specVisible " A" (⟨1, "m1", some ["A"]⟩ : AppEntry) :=
  ⟨by decide, by decide⟩

/-- C2 (amended): an entry is in the filter's output exactly when it is
in the catalog and the specification's visibility condition holds for
the *stripped* client SN: with a non-empty stripped SN, `allowedSn` is
the explicit empty set or non-empty and containing the stripped SN;
with an empty stripped SN, `allowedSn` is the explicit empty set; an
entry with absent `allowedSn` is excluded for every client SN. -/
theorem filter_visibility_amended (c : List AppEntry) (sn : String)
    (a : AppEntry) :
    a ∈ filter_apps_by_sn c sn ↔ a ∈ c ∧ specVisible (pyStrip sn) a :=
  filter_visibility_amended_aux c sn a

/-- C2 witness: the amended statement evaluated on a concrete catalog. -/
theorem filter_visibility_amended_witness :
    (⟨1, "m1", some ["A"]⟩ : AppEntry) ∈
        filter_apps_by_sn [⟨1, "m1", some ["A"]⟩] " A" ↔
      ((⟨1, "m1", some ["A"]⟩ : AppEntry) ∈ [(⟨1, "m1", some ["A"]⟩ : AppEntry)] ∧
        specVisible (pyStrip " A") (⟨1, "m1", some ["A"]⟩ : AppEntry)) :=
  filter_visibility_amended [⟨1, "m1", some ["A"]⟩] " A" ⟨1, "m1", some ["A"]⟩

/-- The quota contract exactly as the specification words it: create is
allowed iff the account's role is super, or `maxApps` is absent
(unlimited for every `ownsApps`), or `ownsApps < maxApps`. -/
def quotaSpecOk (u : ManagerAccount) : Prop :=
  u.role = Role.super ∨
    match u.maxApps with
    | none => True
    | some m => u.ownsApps.getD 0 < m

/-- C3 counterexample: a manager with absent `max_apps` and
`owns_apps = 9999` is rejected by the code's quota check (absent
`max_apps` defaults to 9999, src/app.py line 799), although the claim's
condition (absent `maxApps` means unlimited) allows the create. -/
theorem quota_absent_max_counterexample :
    quotaCheck (some { role := Role.manager, maxApps := none,
                       ownsApps := some 9999 }) = false ∧
    quotaSpecOk { role := Role.manager, maxApps := none,
                  ownsApps := some 9999 } :=
  ⟨by decide, Or.inr trivial⟩

/-- C3 (amended): the quota check passes iff the acting account's role
is super or `ownsApps` (absent = 0) is below `maxApps` with absent
`maxApps` meaning a default limit of 9999 — not unlimited; and whenever
the quota check fails (and the file-info fields are present), `add_app`
fails with `QuotaExceeded` leaving the stores unchanged. -/
theorem quota_check_amended (u : ManagerAccount) (st : St) (owner_user : String)
    (form : AddForm) (g1 g2 : Nat)
    (hu : lookupUser st.users owner_user = some u)
    (hfile : form.downloadUrl ≠ "" ∧ form.size ≠ "" ∧ form.md5 ≠ "") :
    (quotaCheck (some u) = true ↔
      (u.role = Role.super ∨ u.ownsApps.getD 0 < u.maxApps.getD 9999)) ∧
    (quotaCheck (some u) = false →
      add_app st owner_user form g1 g2 = (st, .error .quotaExceeded)) := by
  constructor
  · unfold quotaCheck
    cases hr : u.role <;> simp [hr]
  · intro h
    have hc : (form.downloadUrl == "" || form.size == "" || form.md5 == "")
        = false := by
      simp [hfile.1, hfile.2.1, hfile.2.2]
    unfold add_app
    rw [hu]
    simp [hc, h]

/-- C3 witness: the amended quota statement evaluated on a concrete
manager account under its quota. -/
theorem quota_check_amended_witness :
    (quotaCheck (some ⟨Role.manager, some 10, some 2⟩) = true ↔
      ((⟨Role.manager, some 10, some 2⟩ : ManagerAccount).role = Role.super ∨
        (⟨Role.manager, some 10, some 2⟩ : ManagerAccount).ownsApps.getD 0 <
          (⟨Role.manager, some 10, some 2⟩ : ManagerAccount).maxApps.getD 9999)) ∧
    (quotaCheck (some ⟨Role.manager, some 10, some 2⟩) = false →
      add_app ⟨[], [("m1", ⟨Role.manager, some 10, some 2⟩)], []⟩ "m1"
          ⟨"u", "1", "m", "A", "p", "", ""⟩ 1 2 =
        (⟨[], [("m1", ⟨Role.manager, some 10, some 2⟩)], []⟩,
          .error .quotaExceeded)) :=
  quota_check_amended ⟨Role.manager, some 10, some 2⟩
    ⟨[], [("m1", ⟨Role.manager, some 10, some 2⟩)], []⟩ "m1"
    ⟨"u", "1", "m", "A", "p", "", ""⟩ 1 2 rfl
    ⟨by decide, by decide, by decide⟩

/-- C1 counterexample: with no requested id (`idRaw = ""`), both random
draws collide with existing catalog ids (600000 then 600001); the code
regenerates only once without re-checking (src/app.py line 845), so the
create succeeds and returns id 600001, which is already present —
refuting "a create without a requestedId that succeeds always returns an
id not previously present in the catalog". -/
theorem add_app_random_id_counterexample :
    (add_app ⟨[⟨600000, "m1", some []⟩, ⟨600001, "m1", some []⟩],
              [("m1", ⟨Role.manager, some 10, some 2⟩)], []⟩ "m1"
        ⟨"u", "1", "m", "A", "p", "", ""⟩ 600000 600001).2 =
      .ok ⟨600001, "m1", some []⟩ ∧
    600001 ∈ (([⟨600000, "m1", some []⟩, ⟨600001, "m1", some []⟩] :
        List AppEntry).map AppEntry.id) :=
  ⟨rfl, by decide⟩

/-- C1 (amended): after the earlier checks pass, id resolution works as
follows.  A requested id that strips to a non-empty digit string is
never silently reassigned: if an entry with that id exists the create
fails with `DuplicateId`, otherwise it succeeds with exactly that id.
With no requested id (stripped empty), the create succeeds and uses the
first draw `g1` when it collides with no existing id; on a collision it
uses the second draw `g2` without re-checking uniqueness. -/
theorem add_app_id_resolution_amended (st : St) (owner_user : String)
    (form : AddForm) (g1 g2 : Nat)
    (hfile : form.downloadUrl ≠ "" ∧ form.size ≠ "" ∧ form.md5 ≠ "")
    (hq : quotaCheck (lookupUser st.users owner_user) = true)
    (hsn : findSnConflict st.snConfig owner_user
      (parseSnList form.allowedSnRaw) = none)
    (hfields : form.appName ≠ "" ∧ form.packageName ≠ "") :
    (pyIsDigit (pyStrip form.idRaw) = true →
      (st.apps.any (fun a => a.id == pyStrToNat (pyStrip form.idRaw)) = true →
        (add_app st owner_user form g1 g2).2 =
          .error (.duplicateId (pyStrToNat (pyStrip form.idRaw)))) ∧
      (st.apps.any (fun a => a.id == pyStrToNat (pyStrip form.idRaw)) = false →
        ∃ e, (add_app st owner_user form g1 g2).2 = .ok e ∧
          e.id = pyStrToNat (pyStrip form.idRaw))) ∧
    (pyStrip form.idRaw = "" →
      ∃ e, (add_app st owner_user form g1 g2).2 = .ok e ∧
        e.id = (if st.apps.any (fun a => a.id == g1) = true then g2 else g1)) := by
  have hc : (form.downloadUrl == "" || form.size == "" || form.md5 == "")
      = false := by
    simp [hfile.1, hfile.2.1, hfile.2.2]
  have hf : (form.appName == "" || form.packageName == "") = false := by
    simp [hfields.1, hfields.2]
  constructor
  · intro hd
    have hraw : pyStrip form.idRaw ≠ "" := by
      intro h0
      rw [h0] at hd
      exact absurd hd (by decide)
    constructor
    · intro hclash
      unfold add_app
      simp [hc, hq, hsn, hf, hd, hclash, hraw]
    · intro hclash
      unfold add_app
      simp [hc, hq, hsn, hf, hd, hclash]
  · intro hraw
    unfold add_app
    simp [hc, hq, hsn, hf, hraw, show pyIsDigit "" = false from by decide]

/-- C1 witness: the amended statement applied to a concrete catalog in
which the first draw collides and the second draw is fresh. -/
theorem add_app_id_resolution_amended_witness :
    ∃ e, (add_app ⟨[⟨500000, "m1", some []⟩],
            [("m1", ⟨Role.manager, some 10, some 1⟩)], []⟩ "m1"
          ⟨"u", "1", "m", "A", "p", "", ""⟩ 500000 777777).2 = .ok e ∧
      e.id = (if (⟨[⟨500000, "m1", some []⟩],
            [("m1", ⟨Role.manager, some 10, some 1⟩)], []⟩ : St).apps.any
              (fun a => a.id == 500000) = true then 777777 else 500000) :=
  (add_app_id_resolution_amended
    ⟨[⟨500000, "m1", some []⟩], [("m1", ⟨Role.manager, some 10, some 1⟩)], []⟩
    "m1" ⟨"u", "1", "m", "A", "p", "", ""⟩ 500000 777777
    ⟨by decide, by decide, by decide⟩ (by decide) rfl
    ⟨by decide, by decide⟩).2 rfl

theorem lookupUser_update (users : List (String × ManagerAccount))
    (name : String) (f : ManagerAccount → ManagerAccount) :
    lookupUser (users.map (fun p => if p.1 == name then (p.1, f p.2) else p))
        name = (lookupUser users name).map f := by
  induction users with
  | nil => rfl
  | cons q rest ih =>
    unfold lookupUser at ih ⊢
    by_cases h : q.1 == name
    · rw [List.map_cons, if_pos h,
        List.find?_cons_of_pos (p := fun r => r.1 == name)
          (a := (q.1, f q.2)) _ h,
        List.find?_cons_of_pos (p := fun r => r.1 == name) (a := q) _ h]
      rfl
    · rw [List.map_cons, if_neg h,
        List.find?_cons_of_neg (p := fun r => r.1 == name) (a := q) _ h,
        List.find?_cons_of_neg (p := fun r => r.1 == name) (a := q) _ h]
      exact ih

theorem lookupUser_bumpOwns (users : List (String × ManagerAccount))
    (name : String) (v : Int) :
    lookupUser (bumpOwns users name v) name =
      (lookupUser users name).map (fun a => { a with ownsApps := some v }) := by
  unfold bumpOwns
  exact lookupUser_update users name (fun a => { a with ownsApps := some v })

theorem lookupUser_dropOwns (users : List (String × ManagerAccount))
    (name : String) :
    lookupUser (dropOwns users name) name =
      (lookupUser users name).map
        (fun a =>
          { a with ownsApps := some (max 0 (a.ownsApps.getD 1 - 1)) }) := by
  unfold dropOwns
  exact lookupUser_update users name
    (fun a => { a with ownsApps := some (max 0 (a.ownsApps.getD 1 - 1)) })

/-- Shape of a successful `add_app`: the entry is appended, the SN
registry is untouched, and the owner's counter is bumped exactly when
the acting account's role is `manager`. -/
theorem add_app_ok_shape (st : St) (owner_user : String) (form : AddForm)
    (g1 g2 : Nat) (st' : St) (ent : AppEntry)
    (h : add_app st owner_user form g1 g2 = (st', .ok ent)) :
    st'.apps = st.apps ++ [ent] ∧
    st'.snConfig = st.snConfig ∧
    st'.users = (if (lookupUser st.users owner_user).map ManagerAccount.role
        == some Role.manager then
      bumpOwns st.users owner_user
        (((lookupUser st.users owner_user).bind ManagerAccount.ownsApps).getD 0
          + 1)
    else st.users) := by
  unfold add_app at h
  simp only [] at h
  by_cases c1 : (form.downloadUrl == "" || form.size == "" || form.md5 == "")
      = true
  · rw [if_pos c1] at h
    exact Except.noConfusion (congrArg Prod.snd h)
  · rw [if_neg c1] at h
    by_cases c2 : (!quotaCheck (lookupUser st.users owner_user)) = true
    · rw [if_pos c2] at h
      exact Except.noConfusion (congrArg Prod.snd h)
    · rw [if_neg c2] at h
      cases hfind : findSnConflict st.snConfig owner_user
          (parseSnList form.allowedSnRaw) with
      | some pr =>
        obtain ⟨sn, o⟩ := pr
        rw [hfind] at h
        simp only [] at h
        exact Except.noConfusion (congrArg Prod.snd h)
      | none =>
        rw [hfind] at h
        simp only [] at h
        by_cases c3 : (form.appName == "" || form.packageName == "") = true
        · rw [if_pos c3] at h
          exact Except.noConfusion (congrArg Prod.snd h)
        · rw [if_neg c3] at h
          by_cases c4 : ((st.apps.any fun a => a.id ==
                if pyIsDigit (pyStrip form.idRaw) = true then
                  pyStrToNat (pyStrip form.idRaw) else g1) &&
              decide (pyStrip form.idRaw ≠ "")) = true
          · rw [if_pos c4] at h
            exact Except.noConfusion (congrArg Prod.snd h)
          · rw [if_neg c4] at h
            rw [Prod.mk.injEq] at h
            obtain ⟨hst, hok⟩ := h
            obtain rfl : _ = ent := Except.ok.inj hok
            subst hst
            exact ⟨rfl, rfl, rfl⟩

/-- Shape of a successful `delete_app`: some entry's printed id matched,
the caller was its owner or a super, all matching entries are removed,
the SN registry is untouched, and the former owner's counter is dropped
exactly when that owner is a manager-role account. -/
theorem delete_app_ok_shape (st : St) (owner_user : String) (t : String)
    (st' : St) (h : delete_app st owner_user t = (st', .ok ())) :
    ∃ e, st.apps.find? (fun a => toString a.id == t) = some e ∧
      (e.owner = owner_user ∨
        (lookupUser st.users owner_user).map ManagerAccount.role
          = some Role.super) ∧
      st'.apps = st.apps.filter (fun a => !(toString a.id == t)) ∧
      st'.snConfig = st.snConfig ∧
      st'.users = (if (lookupUser st.users e.owner).map ManagerAccount.role
          == some Role.manager then dropOwns st.users e.owner else st.users) := by
  unfold delete_app at h
  simp only [] at h
  by_cases c1 : (t == "") = true
  · rw [if_pos c1] at h
    exact Except.noConfusion (congrArg Prod.snd h)
  · rw [if_neg c1] at h
    cases hfind : st.apps.find? (fun a => toString a.id == t) with
    | none =>
      rw [hfind] at h
      simp only [] at h
      exact Except.noConfusion (congrArg Prod.snd h)
    | some target =>
      rw [hfind] at h
      simp only [] at h
      split at h
      · exact Except.noConfusion (congrArg Prod.snd h)
      · rename_i hc
        rw [Prod.mk.injEq] at h
        obtain ⟨hst, -⟩ := h
        subst hst
        refine ⟨target, rfl, ?_, rfl, rfl, rfl⟩
        simp only [Bool.and_eq_true, decide_eq_true_eq, not_and_or,
          not_not] at hc
        exact hc

/-- Every error path of `add_app` returns the unmodified stores. -/
theorem add_app_error_state (st : St) (owner_user : String) (form : AddForm)
    (g1 g2 : Nat) (s1 : St) (e : CreateError)
    (h : add_app st owner_user form g1 g2 = (s1, .error e)) : s1 = st := by
  unfold add_app at h
  simp only [] at h
  by_cases c1 : (form.downloadUrl == "" || form.size == "" || form.md5 == "")
      = true
  · rw [if_pos c1, Prod.mk.injEq] at h
    exact h.1.symm
  · rw [if_neg c1] at h
    by_cases c2 : (!quotaCheck (lookupUser st.users owner_user)) = true
    · rw [if_pos c2, Prod.mk.injEq] at h
      exact h.1.symm
    · rw [if_neg c2] at h
      cases hfind : findSnConflict st.snConfig owner_user
          (parseSnList form.allowedSnRaw) with
      | some pr =>
        obtain ⟨sn, o⟩ := pr
        rw [hfind] at h
        simp only [] at h
        rw [Prod.mk.injEq] at h
        exact h.1.symm
      | none =>
        rw [hfind] at h
        simp only [] at h
        by_cases c3 : (form.appName == "" || form.packageName == "") = true
        · rw [if_pos c3, Prod.mk.injEq] at h
          exact h.1.symm
        · rw [if_neg c3] at h
          by_cases c4 : ((st.apps.any fun a => a.id ==
                if pyIsDigit (pyStrip form.idRaw) = true then
                  pyStrToNat (pyStrip form.idRaw) else g1) &&
              decide (pyStrip form.idRaw ≠ "")) = true
          · rw [if_pos c4, Prod.mk.injEq] at h
            exact h.1.symm
          · rw [if_neg c4] at h
            exact Except.noConfusion (congrArg Prod.snd h)

/-- Every error path of `delete_app` returns the unmodified stores. -/
theorem delete_app_error_state (st : St) (owner_user : String) (t : String)
    (s1 : St) (e : DeleteError)
    (h : delete_app st owner_user t = (s1, .error e)) : s1 = st := by
  unfold delete_app at h
  simp only [] at h
  by_cases c1 : (t == "") = true
  · rw [if_pos c1, Prod.mk.injEq] at h
    exact h.1.symm
  · rw [if_neg c1] at h
    cases hfind : st.apps.find? (fun a => toString a.id == t) with
    | none =>
      rw [hfind] at h
      simp only [] at h
      rw [Prod.mk.injEq] at h
      exact h.1.symm
    | some target =>
      rw [hfind] at h
      simp only [] at h
      split at h
      · rw [Prod.mk.injEq] at h
        exact h.1.symm
      · exact Except.noConfusion (congrArg Prod.snd h)

/-- C4: on every successful create by a manager-role principal the
acting manager's `ownsApps` becomes its old value (absent = 0) plus
exactly 1; on every successful delete whose first matching entry is
owned by a manager-role account, that owner's `ownsApps` becomes its old
value (absent = 1) minus 1 floored at 0, which is never negative. -/
theorem owns_counter_increment_decrement (st : St) (owner_user : String)
    (form : AddForm) (g1 g2 : Nat) (t : String) :
    (∀ u, lookupUser st.users owner_user = some u → u.role = Role.manager →
      ∀ st' ent, add_app st owner_user form g1 g2 = (st', .ok ent) →
        lookupUser st'.users owner_user =
          some { u with ownsApps := some (u.ownsApps.getD 0 + 1) }) ∧
    (∀ e w st', st.apps.find? (fun a => toString a.id == t) = some e →
      lookupUser st.users e.owner = some w → w.role = Role.manager →
      delete_app st owner_user t = (st', .ok ()) →
        lookupUser st'.users e.owner =
          some { w with ownsApps := some (max 0 (w.ownsApps.getD 1 - 1)) } ∧
        (0 : Int) ≤ max 0 (w.ownsApps.getD 1 - 1)) := by
  constructor
  · intro u hu hrole st' ent hadd
    obtain ⟨-, -, husers⟩ :=
      add_app_ok_shape st owner_user form g1 g2 st' ent hadd
    have hcond : ((lookupUser st.users owner_user).map ManagerAccount.role
        == some Role.manager) = true := by
      rw [hu]; simp [hrole]
    rw [husers, if_pos hcond, lookupUser_bumpOwns, hu]
    simp
  · intro e w st' hfind hw hwrole hdel
    obtain ⟨e2, hfind2, -, -, -, husers⟩ :=
      delete_app_ok_shape st owner_user t st' hdel
    rw [hfind] at hfind2
    obtain rfl : e = e2 := Option.some.inj hfind2
    have hcond : ((lookupUser st.users e.owner).map ManagerAccount.role
        == some Role.manager) = true := by
      rw [hw]; simp [hwrole]
    rw [husers, if_pos hcond, lookupUser_dropOwns, hw]
    exact ⟨by simp, le_max_left 0 _⟩

/-- C4 witness: a concrete create bumps the counter from 1 to 2 and a
concrete delete on another store drops it from 1 to 0 (floored). -/
theorem owns_counter_increment_decrement_witness :
    (lookupUser (⟨[⟨7, "mA", some []⟩, ⟨111111, "mA", some []⟩],
        [("mA", ⟨Role.manager, some 10, some 2⟩)], []⟩ : St).users "mA" =
      some { (⟨Role.manager, some 10, some 1⟩ : ManagerAccount) with
        ownsApps := some
          ((⟨Role.manager, some 10, some 1⟩ :
              ManagerAccount).ownsApps.getD 0 + 1) }) ∧
    (lookupUser (⟨[],
        [("mA", ⟨Role.manager, some 10, some 0⟩)], []⟩ : St).users "mA" =
      some { (⟨Role.manager, some 10, some 1⟩ : ManagerAccount) with
        ownsApps := some (max 0
          ((⟨Role.manager, some 10, some 1⟩ :
              ManagerAccount).ownsApps.getD 1 - 1)) } ∧
      (0 : Int) ≤ max 0 ((⟨Role.manager, some 10, some 1⟩ :
          ManagerAccount).ownsApps.getD 1 - 1)) :=
  ⟨(owns_counter_increment_decrement
      ⟨[⟨7, "mA", some []⟩], [("mA", ⟨Role.manager, some 10, some 1⟩)], []⟩
      "mA" ⟨"u", "1", "m", "A", "p", "", ""⟩ 111111 2 "7").1
      ⟨Role.manager, some 10, some 1⟩ rfl rfl
      ⟨[⟨7, "mA", some []⟩, ⟨111111, "mA", some []⟩],
        [("mA", ⟨Role.manager, some 10, some 2⟩)], []⟩
      ⟨111111, "mA", some []⟩ rfl,
    (owns_counter_increment_decrement
      ⟨[⟨7, "mA", some []⟩], [("mA", ⟨Role.manager, some 10, some 1⟩)], []⟩
      "mA" ⟨"u", "1", "m", "A", "p", "", ""⟩ 111111 2 "7").2
      ⟨7, "mA", some []⟩ ⟨Role.manager, some 10, some 1⟩
      ⟨[], [("mA", ⟨Role.manager, some 10, some 0⟩)], []⟩
      rfl rfl rfl rfl⟩

theorem snLookup_mem (reg : List (String × String)) (sn o : String)
    (h : snLookup reg sn = some o) : ∃ p ∈ reg, p.2 = o := by
  unfold snLookup at h
  cases hf : reg.find? (fun p => p.1 == sn) with
  | none => rw [hf] at h; exact Option.noConfusion h
  | some p =>
    rw [hf] at h
    exact ⟨p, List.mem_of_find?_eq_some hf, Option.some.inj h⟩

theorem findSnConflict_some (reg : List (String × String)) (user : String)
    (l : List String) (sn o : String)
    (h : findSnConflict reg user l = some (sn, o)) :
    sn ∈ l ∧ snLookup reg sn = some o ∧ o ≠ "" ∧ o ≠ user := by
  induction l with
  | nil => exact Option.noConfusion h
  | cons x rest ih =>
    unfold findSnConflict at h
    cases hx : snLookup reg x with
    | none =>
      rw [hx] at h
      simp only [] at h
      obtain ⟨h1, h2, h3, h4⟩ := ih h
      exact ⟨List.mem_cons_of_mem _ h1, h2, h3, h4⟩
    | some ow =>
      rw [hx] at h
      simp only [] at h
      by_cases hc : (ow ≠ "" && ow ≠ user) = true
      · rw [if_pos hc] at h
        obtain ⟨rfl, rfl⟩ := Prod.mk.injEq .. ▸ Option.some.inj h
        rw [Bool.and_eq_true, decide_eq_true_eq, decide_eq_true_eq] at hc
        exact ⟨List.mem_cons_self x rest, hx, hc.1, hc.2⟩
      · rw [if_neg hc] at h
        obtain ⟨h1, h2, h3, h4⟩ := ih h
        exact ⟨List.mem_cons_of_mem _ h1, h2, h3, h4⟩

theorem findSnConflict_none (reg : List (String × String)) (user : String)
    (l : List String) (hreg : ∀ p ∈ reg, p.2 ≠ "")
    (h : findSnConflict reg user l = none) :
    ∀ sn ∈ l, ∀ o, snLookup reg sn = some o → o = user := by
  induction l with
  | nil =>
    intro sn hsn
    exact absurd hsn (List.not_mem_nil sn)
  | cons x rest ih =>
    unfold findSnConflict at h
    cases hx : snLookup reg x with
    | none =>
      rw [hx] at h
      simp only [] at h
      intro sn hsn o ho
      rcases List.mem_cons.mp hsn with rfl | hmem
      · rw [hx] at ho
        exact Option.noConfusion ho
      · exact ih h sn hmem o ho
    | some ow =>
      rw [hx] at h
      simp only [] at h
      by_cases hc : (ow ≠ "" && ow ≠ user) = true
      · rw [if_pos hc] at h
        exact Option.noConfusion h
      · rw [if_neg hc] at h
        intro sn hsn o ho
        rcases List.mem_cons.mp hsn with rfl | hmem
        · rw [hx] at ho
          obtain rfl : ow = o := Option.some.inj ho
          have hne : ow ≠ "" := by
            obtain ⟨p, hp, hp2⟩ := snLookup_mem reg sn ow hx
            exact hp2 ▸ hreg p hp
          rw [Bool.and_eq_true, decide_eq_true_eq, decide_eq_true_eq,
            not_and_or, not_not, not_not] at hc
          rcases hc with h' | h'
          · exact absurd h' hne
          · exact h'
        · exact ih h sn hmem o ho

/-- With the file-info check passed, the quota check passed, and a
conflict found, `add_app` reports that conflict. -/
theorem add_app_snConflict_of_find (st : St) (owner_user : String)
    (form : AddForm) (g1 g2 : Nat) (sn o : String)
    (hc : (form.downloadUrl == "" || form.size == "" || form.md5 == "")
      = false)
    (hq : quotaCheck (lookupUser st.users owner_user) = true)
    (hfind : findSnConflict st.snConfig owner_user
      (parseSnList form.allowedSnRaw) = some (sn, o)) :
    add_app st owner_user form g1 g2 = (st, .error (.snConflict sn o)) := by
  unfold add_app
  simp [hc, hq, hfind]

/-- If `add_app` reports an SN conflict, the conflict scan found exactly
that pair. -/
theorem add_app_snConflict_inv (st : St) (owner_user : String)
    (form : AddForm) (g1 g2 : Nat) (sn o : String)
    (h : (add_app st owner_user form g1 g2).2 = .error (.snConflict sn o)) :
    findSnConflict st.snConfig owner_user (parseSnList form.allowedSnRaw)
      = some (sn, o) := by
  unfold add_app at h
  simp only [] at h
  by_cases c1 : (form.downloadUrl == "" || form.size == "" || form.md5 == "")
      = true
  · rw [if_pos c1] at h
    exact CreateError.noConfusion (Except.error.inj h)
  · rw [if_neg c1] at h
    by_cases c2 : (!quotaCheck (lookupUser st.users owner_user)) = true
    · rw [if_pos c2] at h
      exact CreateError.noConfusion (Except.error.inj h)
    · rw [if_neg c2] at h
      cases hfind : findSnConflict st.snConfig owner_user
          (parseSnList form.allowedSnRaw) with
      | some pr =>
        obtain ⟨sn0, o0⟩ := pr
        rw [hfind] at h
        simp only [] at h
        obtain ⟨h1, h2⟩ := CreateError.snConflict.inj (Except.error.inj h)
        rw [h1, h2]
      | none =>
        rw [hfind] at h
        simp only [] at h
        by_cases c3 : (form.appName == "" || form.packageName == "") = true
        · rw [if_pos c3] at h
          exact CreateError.noConfusion (Except.error.inj h)
        · rw [if_neg c3] at h
          by_cases c4 : ((st.apps.any fun a => a.id ==
                if pyIsDigit (pyStrip form.idRaw) = true then
                  pyStrToNat (pyStrip form.idRaw) else g1) &&
              decide (pyStrip form.idRaw ≠ "")) = true
          · rw [if_pos c4] at h
            exact CreateError.noConfusion (Except.error.inj h)
          · rw [if_neg c4] at h
            exact Except.noConfusion h

/-- C5: with file info present and the quota check passing, create fails
with an `SnConflict` exactly when some requested SN is registered to a
manager other than the acting user; any reported conflict names a
requested SN and its current registry owner, different from the acting
user; and a successful create leaves the SN registry unchanged
(unclaimed SNs never block, since an unclaimed SN satisfies no
conflict). -/
theorem sn_conflict_check (st : St) (owner_user : String) (form : AddForm)
    (g1 g2 : Nat)
    (hfile : form.downloadUrl ≠ "" ∧ form.size ≠ "" ∧ form.md5 ≠ "")
    (hq : quotaCheck (lookupUser st.users owner_user) = true)
    (hreg : ∀ p ∈ st.snConfig, p.2 ≠ "") :
    ((∃ sn o, (add_app st owner_user form g1 g2).2 =
        .error (.snConflict sn o)) ↔
      ∃ sn ∈ parseSnList form.allowedSnRaw, ∃ o,
        snLookup st.snConfig sn = some o ∧ o ≠ owner_user) ∧
    (∀ sn o, (add_app st owner_user form g1 g2).2 =
        .error (.snConflict sn o) →
      sn ∈ parseSnList form.allowedSnRaw ∧
      snLookup st.snConfig sn = some o ∧ o ≠ owner_user) ∧
    (∀ st' ent, add_app st owner_user form g1 g2 = (st', .ok ent) →
      st'.snConfig = st.snConfig) := by
  have hc : (form.downloadUrl == "" || form.size == "" || form.md5 == "")
      = false := by
    simp [hfile.1, hfile.2.1, hfile.2.2]
  refine ⟨⟨?_, ?_⟩, ?_, ?_⟩
  · rintro ⟨sn, o, hres⟩
    obtain ⟨hmem, hlook, -, hneu⟩ :=
      findSnConflict_some _ _ _ _ _
        (add_app_snConflict_inv st owner_user form g1 g2 sn o hres)
    exact ⟨sn, hmem, o, hlook, hneu⟩
  · rintro ⟨sn, hmem, o, hlook, hneu⟩
    cases hfind : findSnConflict st.snConfig owner_user
        (parseSnList form.allowedSnRaw) with
    | none =>
      exact absurd (findSnConflict_none _ _ _ hreg hfind sn hmem o hlook) hneu
    | some pr =>
      obtain ⟨sn0, o0⟩ := pr
      refine ⟨sn0, o0, ?_⟩
      rw [add_app_snConflict_of_find st owner_user form g1 g2 sn0 o0 hc hq
        hfind]
  · intro sn o hres
    obtain ⟨hmem, hlook, -, hneu⟩ :=
      findSnConflict_some _ _ _ _ _
        (add_app_snConflict_inv st owner_user form g1 g2 sn o hres)
    exact ⟨hmem, hlook, hneu⟩
  · intro st' ent hok
    exact (add_app_ok_shape st owner_user form g1 g2 st' ent hok).2.1

/-- C5 witness: with SN `"114514"` registered to `"m1"`, manager `"m2"`
requesting that SN gets an `SnConflict`. -/
theorem sn_conflict_check_witness :
    ∃ sn o, (add_app ⟨[], [("m2", ⟨Role.manager, some 10, some 0⟩)],
        [("114514", "m1")]⟩ "m2" ⟨"u", "1", "m", "A", "p", "114514", ""⟩
        1 2).2 = .error (.snConflict sn o) :=
  ((sn_conflict_check ⟨[], [("m2", ⟨Role.manager, some 10, some 0⟩)],
      [("114514", "m1")]⟩ "m2" ⟨"u", "1", "m", "A", "p", "114514", ""⟩ 1 2
      ⟨by decide, by decide, by decide⟩ (by decide)
      (by decide)).1).mpr
    ⟨"114514", by decide, "m1", rfl, by decide⟩

/-- C6: deleting an existing entry (the first whose printed id matches
the non-empty target) succeeds exactly when the caller is its owner or
has the super role — in particular a super deletes any entry — and in
every other case fails with Forbidden leaving the stores unchanged. -/
theorem delete_authorization (st : St) (owner_user : String) (t : String)
    (e : AppEntry) (ht : t ≠ "")
    (he : st.apps.find? (fun a => toString a.id == t) = some e) :
    ((e.owner = owner_user ∨
        (lookupUser st.users owner_user).map ManagerAccount.role
          = some Role.super) →
      (delete_app st owner_user t).2 = .ok () ∧
      (delete_app st owner_user t).1.apps =
        st.apps.filter (fun a => !(toString a.id == t))) ∧
    ((e.owner ≠ owner_user ∧
        (lookupUser st.users owner_user).map ManagerAccount.role
          ≠ some Role.super) →
      delete_app st owner_user t = (st, .error .forbidden)) := by
  have hc1 : (t == "") = false := by simp [ht]
  constructor
  · intro hAuth
    have hP : ¬(¬e.owner = owner_user ∧
        ∀ x : ManagerAccount, lookupUser st.users owner_user = some x →
          ¬x.role = Role.super) := by
      rcases hAuth with h' | h'
      · exact fun hcontra => hcontra.1 h'
      · intro hcontra
        cases hlk : lookupUser st.users owner_user with
        | none =>
          rw [hlk] at h'
          exact Option.noConfusion h'
        | some x =>
          rw [hlk, Option.map_some'] at h'
          exact hcontra.2 x hlk (Option.some.inj h')
    unfold delete_app
    simp [hc1, he]
    rw [if_neg hP]
    exact ⟨rfl, rfl⟩
  · intro hAuth
    unfold delete_app
    simp [hc1, he]
    exact ⟨hAuth.1, fun x hx hrole =>
      hAuth.2 (by rw [hx, Option.map_some', hrole])⟩

/-- C6 witness: manager `"mB"` cannot delete the entry owned by
`"mA"`. -/
theorem delete_authorization_witness :
    delete_app ⟨[⟨7, "mA", some []⟩],
        [("mA", ⟨Role.manager, some 10, some 1⟩),
         ("mB", ⟨Role.manager, some 10, some 0⟩)], []⟩ "mB" "7" =
      (⟨[⟨7, "mA", some []⟩],
        [("mA", ⟨Role.manager, some 10, some 1⟩),
         ("mB", ⟨Role.manager, some 10, some 0⟩)], []⟩, .error .forbidden) :=
  (delete_authorization ⟨[⟨7, "mA", some []⟩],
      [("mA", ⟨Role.manager, some 10, some 1⟩),
       ("mB", ⟨Role.manager, some 10, some 0⟩)], []⟩ "mB" "7"
      ⟨7, "mA", some []⟩ (by decide) rfl).2 ⟨by decide, by decide⟩

/-- C7: every failed `add_app` or `delete_app` leaves all three stores
exactly as they were — no entry appended or removed, no counter
changed. -/
theorem mutation_failure_atomicity (st : St) (owner_user : String)
    (form : AddForm) (g1 g2 : Nat) (t : String) :
    (∀ err, (add_app st owner_user form g1 g2).2 = .error err →
      (add_app st owner_user form g1 g2).1 = st) ∧
    (∀ err, (delete_app st owner_user t).2 = .error err →
      (delete_app st owner_user t).1 = st) := by
  constructor
  · intro err herr
    exact add_app_error_state st owner_user form g1 g2 _ err (by rw [← herr])
  · intro err herr
    exact delete_app_error_state st owner_user t _ err (by rw [← herr])

/-- C7 witness: a create failing validation and a delete failing lookup
both return the untouched empty store. -/
theorem mutation_failure_atomicity_witness :
    (add_app ⟨[], [], []⟩ "m" ⟨"", "", "", "", "", "", ""⟩ 1 2).1
      = ⟨[], [], []⟩ ∧
    (delete_app ⟨[], [], []⟩ "m" "9").1 = ⟨[], [], []⟩ :=
  ⟨(mutation_failure_atomicity ⟨[], [], []⟩ "m" ⟨"", "", "", "", "", "", ""⟩
      1 2 "9").1 .missingFileInfo rfl,
   (mutation_failure_atomicity ⟨[], [], []⟩ "m" ⟨"", "", "", "", "", "", ""⟩
      1 2 "9").2 .notFound rfl⟩

/-- C8: the system-apps listing and the auto-update listing serve the
whole catalog with no SN filtering: each equals the catalog itself, so
every entry — including one with an absent `allowedSn`, which the
visibility filter excludes for every client SN — appears in both. -/
theorem listings_bypass_visibility_filter (c : List AppEntry) (sn : String) :
    system_apps_list c = c ∧ auto_update_list c = c ∧
    ∀ a ∈ c, a ∈ system_apps_list c ∧ a ∈ auto_update_list c ∧
      (a.allowedSn = none → a ∉ filter_apps_by_sn c sn) := by
  refine ⟨rfl, rfl, fun a ha => ⟨ha, ha, fun hnone hmem => ?_⟩⟩
  obtain ⟨-, hvis⟩ := (filter_visibility_amended_aux c sn a).mp hmem
  unfold specVisible at hvis
  rw [hnone] at hvis
  exact hvis

/-- C8 witness: an entry with absent `allowedSn` is served by both
listings although the visibility filter hides it. -/
theorem listings_bypass_visibility_filter_witness :
    (⟨1, "m", none⟩ : AppEntry) ∈ system_apps_list [⟨1, "m", none⟩] ∧
    (⟨1, "m", none⟩ : AppEntry) ∈ auto_update_list [⟨1, "m", none⟩] ∧
    ((⟨1, "m", none⟩ : AppEntry).allowedSn = none →
      (⟨1, "m", none⟩ : AppEntry) ∉ filter_apps_by_sn [⟨1, "m", none⟩] "S") :=
  (listings_bypass_visibility_filter [⟨1, "m", none⟩] "S").2.2
    ⟨1, "m", none⟩ (List.mem_singleton.mpr rfl)

/-- C9: when the requested `appId` matches no catalog entry,
`apk_details` returns the first catalog entry (whatever its `allowedSn`)
and reports the empty-catalog error only when the catalog is empty. -/
theorem apk_details_fallback (c : List AppEntry) (i : String)
    (hnone : c.find? (fun a => toString a.id == i) = none) :
    apk_details c i = c.head? ∧ (apk_details c i = none ↔ c = []) := by
  unfold apk_details
  rw [hnone]
  exact ⟨rfl, List.head?_eq_none_iff⟩

/-- C9 witness: a lookup for the absent id `"99"` on a one-entry catalog
returns that (SN-restricted) first entry. -/
theorem apk_details_fallback_witness :
    apk_details [⟨5, "m", some ["X"]⟩] "99" =
        ([⟨5, "m", some ["X"]⟩] : List AppEntry).head? ∧
    (apk_details [⟨5, "m", some ["X"]⟩] "99" = none ↔
      ([(⟨5, "m", some ["X"]⟩ : AppEntry)]) = []) :=
  apk_details_fallback [⟨5, "m", some ["X"]⟩] "99" rfl
